import Mathlib

/-!
Verification of the gcbmwalltowall core pipeline against its specification.

The Python sources are shallowly embedded:
* `Rollback` models src/gcbmwalltowall/component/rollback.py
  (the age-distribution builder, `_ClassifierSet` and `_AgeDistribution`);
* `Converter` models src/gcbmwalltowall/converter/projectconverter.py
  (pivot flattening, the yield/transition extraction queries, and the
  `convert` output-directory lifecycle);
* `Walltowall` models src/gcbmwalltowall/application/walltowall.py
  (the `merge` orchestration).

Spreadsheet cells are modelled by the inductive `Rollback.Cell`: a cell is
blank, a string, an integer or a rational number (Python floats carry no
arithmetic in the translated code, so exact rationals are a faithful stand-in),
and `Cell.truthy` mirrors Python truthiness. pandas reads a blank
distribution-sheet cell as the float `nan`, and `bool(float("nan"))` is True,
so a blank cell is truthy; only the root sheet passes through
`replace([np.nan], [None])` before its truthiness test. A dict key that is
absent altogether (`row_data.get` returning `None`) is the `Option` `none`.
-/

/-- Python lexicographic comparison of strings, on their character lists
(strict less-than, by code point). -/
def charListLt : List Char → List Char → Bool
| [], [] => false
| [], _ :: _ => true
| _ :: _, [] => false
| x :: xs, y :: ys =>
  if x.toNat < y.toNat then true
  else if x.toNat = y.toNat then charListLt xs ys
  else false

/-- Python string strict comparison. -/
def strLtB (a b : String) : Bool := charListLt a.data b.data

theorem charListLt_cons_iff {x y : Char} {xs ys : List Char} :
    charListLt (x :: xs) (y :: ys) = true ↔
      x.toNat < y.toNat ∨ (x.toNat = y.toNat ∧ charListLt xs ys = true) := by
  simp only [charListLt]
  split_ifs with h h' <;> simp_all

theorem charListLt_irrefl : ∀ l, charListLt l l = false
| [] => rfl
| _ :: xs => by simp [charListLt, charListLt_irrefl xs]

theorem charListLt_trans : ∀ a b c, charListLt a b = true → charListLt b c = true →
    charListLt a c = true
| [], [], _, h1, _ => by simp [charListLt] at h1
| [], _ :: _, [], _, h2 => by simp [charListLt] at h2
| [], _ :: _, _ :: _, _, _ => by simp [charListLt]
| _ :: _, [], _, h1, _ => by simp [charListLt] at h1
| _ :: _, _ :: _, [], _, h2 => by simp [charListLt] at h2
| x :: xs, y :: ys, z :: zs, h1, h2 => by
  rw [charListLt_cons_iff] at h1 h2 ⊢
  rcases h1 with h1 | ⟨h1e, h1t⟩
  · rcases h2 with h2 | ⟨h2e, _⟩
    · exact Or.inl (by omega)
    · exact Or.inl (by omega)
  · rcases h2 with h2 | ⟨h2e, h2t⟩
    · exact Or.inl (by omega)
    · exact Or.inr ⟨by omega, charListLt_trans xs ys zs h1t h2t⟩

theorem charListLt_connex : ∀ a b, charListLt a b = false → charListLt b a = false →
    a = b
| [], [], _, _ => rfl
| [], _ :: _, h1, _ => by simp [charListLt] at h1
| _ :: _, [], _, h2 => by simp [charListLt] at h2
| x :: xs, y :: ys, h1, h2 => by
  rw [Bool.eq_false_iff, Ne, charListLt_cons_iff] at h1 h2
  push_neg at h1 h2
  have hxy : x.toNat = y.toNat := by omega
  have ht1 : charListLt xs ys = false :=
    Bool.eq_false_iff.mpr (h1.2 hxy)
  have ht2 : charListLt ys xs = false :=
    Bool.eq_false_iff.mpr (h2.2 hxy.symm)
  rw [Char.ext (UInt32.ext hxy), charListLt_connex xs ys ht1 ht2]

theorem strLtB_asymm {a b : String} (h1 : strLtB a b = true) (h2 : strLtB b a = true) :
    False := by
  have h := charListLt_trans a.data b.data a.data h1 h2
  rw [charListLt_irrefl] at h
  exact Bool.false_ne_true h

theorem strLtB_eq_of_not {a b : String} (h1 : strLtB a b = false) (h2 : strLtB b a = false) :
    a = b := by
  have hd := charListLt_connex a.data b.data h1 h2
  cases a; cases b; exact congrArg String.mk hd

namespace Rollback

/-- A spreadsheet cell value as seen by the rollback code; a blank cell is
what pandas reads as the float `nan`. -/
inductive Cell
| blank
| str (s : String)
| int (n : Int)
| num (q : Rat)
deriving DecidableEq

/-- Python truthiness of a cell value: `""`, `0` and `0.0` are falsy, but a
blank cell is `nan` and `bool(nan)` is True, so it is truthy. -/
def Cell.truthy : Cell → Bool
| .blank => true
| .str s => s ≠ ""
| .int n => n ≠ 0
| .num q => q ≠ 0

/-- Python `int(...)` applied to a cell value; `int` of a float truncates
toward zero, and `int` of a non-numeric string or of `nan` raises. -/
def pyInt : Cell → Except String Int
| .int n => .ok n
| .num q =>
  if q.num ≥ 0 then .ok (q.num / (q.den : Int))
  else .ok (-((-q.num) / (q.den : Int)))
| .str s =>
  match s.toInt? with
  | some n => .ok n
  | none => .error "ValueError: invalid literal for int"
| .blank => .error "ValueError: cannot convert float NaN to integer"

/-- The contents of a `_ClassifierSet`: an insertion-ordered dict from
classifier name to cell value. -/
abbrev ClassifierSet := List (String × Cell)

/-- Ordering used by Python `sorted(self.items())`: items are compared as
tuples; within one dict the keys are unique, so the name component decides
every comparison the sort performs. -/
def pairNameLe (a b : String × Cell) : Prop := strLtB b.1 a.1 = false

instance : DecidableRel pairNameLe :=
fun a b => inferInstanceAs (Decidable (strLtB b.1 a.1 = false))

instance : IsTotal (String × Cell) pairNameLe :=
⟨by
  intro a b
  cases h1 : strLtB b.1 a.1
  · exact Or.inl h1
  · cases h2 : strLtB a.1 b.1
    · exact Or.inr h2
    · exact absurd (strLtB_asymm h2 h1) not_false⟩

instance : IsTrans (String × Cell) pairNameLe :=
⟨by
  intro a b c h1 h2
  unfold pairNameLe at *
  cases h3 : strLtB c.1 a.1
  · rfl
  · exfalso
    cases h4 : strLtB a.1 b.1
    · rw [strLtB_eq_of_not h4 h1] at h3
      rw [h2] at h3
      exact Bool.false_ne_true h3
    · have h5 : charListLt c.1.data b.1.data = true :=
        charListLt_trans c.1.data a.1.data b.1.data h3 h4
      have h6 : strLtB c.1 b.1 = true := h5
      rw [h2] at h6
      exact Bool.false_ne_true h6⟩

/-- Models `sorted(self.items())` from `_ClassifierSet.__eq__` / `__hash__`. -/
def sortItems (cs : ClassifierSet) : ClassifierSet :=
List.insertionSort pairNameLe cs

/-- Models `_ClassifierSet.__eq__`: equality of the sorted item tuples. -/
def csEq (cs1 cs2 : ClassifierSet) : Bool :=
decide (sortItems cs1 = sortItems cs2)

/-- A pure stand-in for Python string hashing (any deterministic function of
the string models the opaque interpreter hash). -/
def strHashW (s : String) : Nat :=
s.data.foldl (fun h c => h * 131 + c.toNat) 7

/-- A pure stand-in for Python hashing of a cell value. -/
def cellHash : Cell → Nat
| .blank => 11
| .str s => 13 + 31 * strHashW s
| .int n => 17 + 31 * strHashW (toString n)
| .num q => 19 + 31 * strHashW (toString q)

/-- Models `_ClassifierSet.__hash__`: a pure function of the sorted item tuple,
modelling `hash(tuple(sorted(self.items())))`. -/
def csHash (cs : ClassifierSet) : Nat :=
(sortItems cs).foldl (fun h p => h * 1000003 + strHashW p.1 * 31 + cellHash p.2) 5381

/-- Strictified item comparison: strictly smaller name, or equal items.
Sorted item lists with pairwise-distinct names are sorted for it. -/
def pairNameLtEq (a b : String × Cell) : Prop := strLtB a.1 b.1 = true ∨ a = b

instance : IsAntisymm (String × Cell) pairNameLtEq :=
⟨by
  intro a b hab hba
  rcases hab with h | h
  · rcases hba with h' | h'
    · exact absurd (strLtB_asymm h h') not_false
    · exact h'.symm
  · exact h⟩

theorem sorted_pairNameLtEq_of_sorted_nodup {l : List (String × Cell)}
    (hs : List.Sorted pairNameLe l) (hnd : (l.map Prod.fst).Nodup) :
    List.Sorted pairNameLtEq l := by
  have hne : l.Pairwise (fun a b : String × Cell => a.1 ≠ b.1) :=
    List.pairwise_map.mp hnd
  refine (hs.and hne).imp ?_
  intro a b h
  left
  cases hlt : strLtB a.1 b.1
  · exact absurd (strLtB_eq_of_not hlt h.1) h.2
  · rfl

/-- Two classifier sets holding the same (name, value) pairs in a different
insertion order have identical sorted item tuples. -/
theorem sortItems_eq_of_perm {cs1 cs2 : ClassifierSet}
    (hnd : (cs1.map Prod.fst).Nodup) (hp : cs1.Perm cs2) :
    sortItems cs1 = sortItems cs2 := by
  have hnd2 : (cs2.map Prod.fst).Nodup := (hp.map Prod.fst).nodup_iff.mp hnd
  have hperm : (sortItems cs1).Perm (sortItems cs2) :=
    ((List.perm_insertionSort pairNameLe cs1).trans hp).trans
      (List.perm_insertionSort pairNameLe cs2).symm
  have hs1 : List.Sorted pairNameLtEq (sortItems cs1) :=
    sorted_pairNameLtEq_of_sorted_nodup (List.sorted_insertionSort pairNameLe cs1)
      (((List.perm_insertionSort pairNameLe cs1).map Prod.fst).nodup_iff.mpr hnd)
  have hs2 : List.Sorted pairNameLtEq (sortItems cs2) :=
    sorted_pairNameLtEq_of_sorted_nodup (List.sorted_insertionSort pairNameLe cs2)
      (((List.perm_insertionSort pairNameLe cs2).map Prod.fst).nodup_iff.mpr hnd2)
  exact List.eq_of_perm_of_sorted hperm hs1 hs2

theorem csEq_eq_true_iff {cs1 cs2 : ClassifierSet} :
    csEq cs1 cs2 = true ↔ sortItems cs1 = sortItems cs2 := by
  simp [csEq]

end Rollback


namespace Rollback

/-- Python dict item assignment `m[age] = p` on the inner age dict of
`_AgeDistribution`: an existing key keeps its position and gets the new
value; a new key is appended. -/
def innerSet (m : List (Int × Cell)) (age : Int) (p : Cell) : List (Int × Cell) :=
if m.any (fun e => e.1 == age) then
  m.map (fun e => if e.1 == age then (e.1, p) else e)
else m ++ [(age, p)]

/-- The `_AgeDistribution` object: the sheet's disturbance types and the
`defaultdict` from `_ClassifierSet` to an insertion-ordered age dict.
Keys are looked up with the overridden `_ClassifierSet.__eq__`. -/
structure AgeDist where
  disturbance_types : List Cell
  distributions : List (ClassifierSet × List (Int × Cell))
deriving DecidableEq

/-- Models `_AgeDistribution.__init__`. -/
def AgeDist.empty (dts : List Cell) : AgeDist := ⟨dts, []⟩

/-- Models `_AgeDistribution.add`: `self.distributions[classifier_set][age] = proportion`,
where the outer `defaultdict` matches keys by `_ClassifierSet` equality and
inserts the classifier set with a fresh inner dict when absent. -/
def AgeDist.add (d : AgeDist) (age : Int) (p : Cell) (cs : ClassifierSet) : AgeDist :=
if d.distributions.any (fun e => csEq e.1 cs) then
  { d with distributions := d.distributions.map (fun e =>
      if csEq e.1 cs then (e.1, innerSet e.2 age p) else e) }
else
  { d with distributions := d.distributions ++ [(cs, [(age, p)])] }

/-- Tuple comparison used by `sorted(proportions.items())`. Ages in one inner
dict are unique, so only the age component is ever compared; insertion sort is
stable, matching Python's stable `sorted`. -/
def agePairLe (a b : Int × Cell) : Prop := a.1 ≤ b.1

instance : DecidableRel agePairLe :=
fun a b => inferInstanceAs (Decidable (a.1 ≤ b.1))

instance : IsTotal (Int × Cell) agePairLe :=
⟨fun a b => le_total a.1 b.1⟩

instance : IsTrans (Int × Cell) agePairLe :=
⟨fun _ _ _ h1 h2 => le_trans h1 h2⟩

/-- Models `sorted(proportions.items())`. -/
def sortByAge (m : List (Int × Cell)) : List (Int × Cell) :=
List.insertionSort agePairLe m

/-- One emitted JSON object of `_AgeDistribution.to_json`: the optional
disturbance-type list, singleton classifier fields, and the sorted
age/proportion sequence. -/
structure DistRecord where
  disturbance_type : Option (List Cell)
  classifiers : List (String × List Cell)
  distribution : List (Int × Cell)
deriving DecidableEq

/-- Models `_AgeDistribution.to_json`. -/
def AgeDist.toJson (d : AgeDist) : List DistRecord :=
d.distributions.map (fun e =>
  { disturbance_type := if d.disturbance_types.isEmpty then none
      else some d.disturbance_types
    classifiers := e.1.map (fun p => (p.1, [p.2]))
    distribution := sortByAge e.2 })

/-- Value lookup in the inner age dict. -/
def innerLookup (m : List (Int × Cell)) (age : Int) : Option Cell :=
(m.find? (fun e => e.1 == age)).map (fun e => e.2)

/-- Entry lookup in the outer distribution dict (by `_ClassifierSet` equality). -/
def AgeDist.findEntry (d : AgeDist) (cs : ClassifierSet) :
    Option (ClassifierSet × List (Int × Cell)) :=
d.distributions.find? (fun e => csEq e.1 cs)

/-- The proportion the builder currently holds for a classifier set and age. -/
def emittedProp (d : AgeDist) (cs : ClassifierSet) (age : Int) : Option Cell :=
(d.findEntry cs).bind (fun e => innerLookup e.2 age)

/-- The age/proportion sequence `to_json` emits for a classifier set. -/
def emittedDistribution (d : AgeDist) (cs : ClassifierSet) :
    Option (List (Int × Cell)) :=
(d.findEntry cs).map (fun e => sortByAge e.2)

/-- A whole sheet of `add` calls (age, proportion, classifier set), applied in
row order to a fresh `_AgeDistribution`. -/
def buildDist (dts : List Cell) (ops : List (Int × Cell × ClassifierSet)) : AgeDist :=
ops.foldl (fun d op => d.add op.1 op.2.1 op.2.2) (AgeDist.empty dts)

/-- Whether an `add` call targets the given classifier set and age. -/
def opMatches (cs : ClassifierSet) (age : Int) (op : Int × Cell × ClassifierSet) : Bool :=
csEq op.2.2 cs && op.1 == age

/-- The proportion of the last `add` call targeting a classifier set and age. -/
def lastProp (ops : List (Int × Cell × ClassifierSet)) (cs : ClassifierSet)
    (age : Int) : Option Cell :=
((ops.filter (opMatches cs age)).getLast?).map (fun op => op.2.1)

theorem csEq_symm {a b : ClassifierSet} : csEq a b = csEq b a := by
  simp [csEq, eq_comm]

theorem csEq_congr {a b c : ClassifierSet} (h : csEq a b = true) :
    csEq c a = csEq c b := by
  rw [csEq_eq_true_iff] at h
  simp [csEq, h]

theorem innerLookup_innerSet (m : List (Int × Cell)) (a age : Int) (p : Cell) :
    innerLookup (innerSet m a p) age =
      if a == age then some p else innerLookup m age := by
  unfold innerSet
  by_cases hany : m.any (fun e => e.1 == a)
  · rw [if_pos hany]
    unfold innerLookup
    rw [List.find?_map]
    by_cases haa : a = age
    · subst haa
      rw [if_pos (by simp)]
      rcases List.any_eq_true.mp hany with ⟨e, he, hpe⟩
      have hfind : ∃ e0, m.find? (fun e => e.1 == a) = some e0 := by
        cases hf : m.find? (fun e => e.1 == a) with
        | none => exact absurd (List.find?_eq_none.mp hf e he) (by simp_all)
        | some e0 => exact ⟨e0, rfl⟩
      rcases hfind with ⟨e0, hf⟩
      have hcomp : (fun e : Int × Cell => e.1 == a) ∘
          (fun e : Int × Cell => if e.1 == a then (e.1, p) else e) =
          (fun e : Int × Cell => e.1 == a) := by
        funext e
        by_cases h : e.1 = a <;> simp [h]
      rw [hcomp, hf]
      have he0 := List.find?_some hf
      simp only [beq_iff_eq] at he0
      simp [he0]
    · rw [if_neg (by simpa using haa)]
      have hcomp : (fun e : Int × Cell => e.1 == age) ∘
          (fun e : Int × Cell => if e.1 == a then (e.1, p) else e) =
          (fun e : Int × Cell => e.1 == age) := by
        funext e
        by_cases h : e.1 = a <;> simp [h]
      rw [hcomp]
      cases hf : m.find? (fun e => e.1 == age) with
      | none => simp
      | some e0 =>
        have he0 := List.find?_some hf
        simp only [beq_iff_eq] at he0
        have hne : ¬ e0.1 = a := by omega
        simp [hne]
  · rw [if_neg hany]
    unfold innerLookup
    rw [List.find?_append]
    by_cases haa : a = age
    · subst haa
      rw [if_pos (by simp)]
      have hnone : m.find? (fun e => e.1 == a) = none := by
        rw [List.find?_eq_none]
        intro x hx hc
        exact hany (List.any_eq_true.mpr ⟨x, hx, hc⟩)
      simp [hnone]
    · rw [if_neg (by simpa using haa)]
      have : ¬((a, p).1 == age) = true := by simpa using haa
      simp [List.find?_cons, this]

theorem innerSet_keys_nodup {m : List (Int × Cell)} {a : Int} {p : Cell}
    (h : (m.map Prod.fst).Nodup) : ((innerSet m a p).map Prod.fst).Nodup := by
  unfold innerSet
  by_cases hany : m.any (fun e => e.1 == a)
  · rw [if_pos hany]
    have hkeys : (m.map (fun e : Int × Cell => if e.1 == a then (e.1, p) else e)).map Prod.fst
        = m.map Prod.fst := by
      rw [List.map_map]
      apply List.map_congr_left
      intro e _
      by_cases h : e.1 = a <;> simp [h]
    rw [hkeys]
    exact h
  · rw [if_neg hany]
    rw [List.map_append]
    simp only [List.map_cons, List.map_nil]
    rw [List.nodup_append]
    refine ⟨h, List.nodup_singleton _, ?_⟩
    intro x hx
    simp only [List.mem_singleton]
    rcases List.mem_map.mp hx with ⟨e, he, hfe⟩
    intro hxa
    subst hfe hxa
    exact hany (List.any_eq_true.mpr ⟨e, he, by simp⟩)

theorem add_entry_fst (cs' : ClassifierSet) (a : Int) (p : Cell)
    (e : ClassifierSet × List (Int × Cell)) :
    (if csEq e.1 cs' then (e.1, innerSet e.2 a p) else e).1 = e.1 := by
  by_cases h : csEq e.1 cs' = true <;> simp [h]

theorem emittedProp_add (d : AgeDist) (a : Int) (p : Cell) (cs' cs : ClassifierSet)
    (age : Int) :
    emittedProp (d.add a p cs') cs age =
      if csEq cs' cs && a == age then some p else emittedProp d cs age := by
  unfold AgeDist.add
  by_cases houter : d.distributions.any (fun e => csEq e.1 cs') = true
  · rw [if_pos houter]
    simp only [emittedProp, AgeDist.findEntry]
    rw [List.find?_map]
    have hcomp : ((fun e : ClassifierSet × List (Int × Cell) => csEq e.1 cs) ∘
        (fun e : ClassifierSet × List (Int × Cell) =>
          if csEq e.1 cs' then (e.1, innerSet e.2 a p) else e)) =
        (fun e : ClassifierSet × List (Int × Cell) => csEq e.1 cs) := by
      funext e
      simp [Function.comp, add_entry_fst]
    rw [hcomp]
    by_cases hcc : csEq cs' cs = true
    · have hpred : ∀ e : ClassifierSet × List (Int × Cell),
          csEq e.1 cs' = csEq e.1 cs := fun e => csEq_congr hcc
      cases hf : d.distributions.find? (fun e => csEq e.1 cs) with
      | none =>
        exfalso
        rcases List.any_eq_true.mp houter with ⟨e1, he1, hpe1⟩
        rw [hpred e1] at hpe1
        exact List.find?_eq_none.mp hf e1 he1 hpe1
      | some e0 =>
        have hp0 : csEq e0.1 cs = true := by
          have h := List.find?_some hf
          exact h
        have hp0' : csEq e0.1 cs' = true := by rw [hpred e0]; exact hp0
        simp only [Option.map_some', Option.some_bind, hp0', if_true]
        rw [innerLookup_innerSet]
        simp only [hcc, Bool.true_and]
    · cases hf : d.distributions.find? (fun e => csEq e.1 cs) with
      | none => simp [hcc]
      | some e0 =>
        have hp0 : csEq e0.1 cs = true := by
          have h := List.find?_some hf
          exact h
        have hp0' : csEq e0.1 cs' = false := by
          cases hq : csEq e0.1 cs' with
          | false => rfl
          | true =>
            exfalso
            apply hcc
            rw [csEq_eq_true_iff] at hp0 hq ⊢
            rw [← hq, hp0]
        simp [hp0', hcc]
  · rw [if_neg houter]
    simp only [emittedProp, AgeDist.findEntry]
    rw [List.find?_append]
    by_cases hcc : csEq cs' cs = true
    · have hpred : ∀ e : ClassifierSet × List (Int × Cell),
          csEq e.1 cs' = csEq e.1 cs := fun e => csEq_congr hcc
      have hnone : d.distributions.find? (fun e => csEq e.1 cs) = none := by
        rw [List.find?_eq_none]
        intro x hx hc
        apply houter
        apply List.any_eq_true.mpr
        exact ⟨x, hx, by rw [hpred x]; exact hc⟩
      rw [hnone]
      simp only [Option.none_or]
      simp only [List.find?_cons, hcc, if_true]
      by_cases ha : a = age <;>
        simp [ha, hnone, emittedProp, AgeDist.findEntry, innerLookup, hcc]
    · have hsing : List.find? (fun e : ClassifierSet × List (Int × Cell) => csEq e.1 cs)
          [(cs', [(a, p)])] = none := by
        simp [List.find?_cons, hcc]
      rw [hsing]
      simp [hcc, emittedProp, AgeDist.findEntry]

theorem lastProp_cons (op : Int × Cell × ClassifierSet)
    (ops : List (Int × Cell × ClassifierSet)) (cs : ClassifierSet) (age : Int) :
    lastProp (op :: ops) cs age =
      (lastProp ops cs age).or
        (if opMatches cs age op then some op.2.1 else none) := by
  unfold lastProp
  rw [List.filter_cons]
  by_cases hm : opMatches cs age op = true
  · rw [if_pos hm, if_pos hm]
    cases hfo : ops.filter (opMatches cs age) with
    | nil => simp
    | cons x xs =>
      rw [List.getLast?_cons_cons]
      have hsome : (x :: xs).getLast?.isSome = true := by
        rw [List.getLast?_isSome]
        simp
      rcases Option.isSome_iff_exists.mp hsome with ⟨z, hz⟩
      simp [hz]
  · rw [if_neg hm, if_neg hm]
    simp

theorem emittedProp_foldl :
    ∀ (ops : List (Int × Cell × ClassifierSet)) (d : AgeDist) (cs : ClassifierSet)
      (age : Int),
      emittedProp (ops.foldl (fun d op => d.add op.1 op.2.1 op.2.2) d) cs age =
        (lastProp ops cs age).or (emittedProp d cs age)
| [], d, cs, age => by simp [lastProp]
| op :: ops, d, cs, age => by
  rw [List.foldl_cons]
  rw [emittedProp_foldl ops (d.add op.1 op.2.1 op.2.2) cs age]
  rw [emittedProp_add, lastProp_cons]
  have hsplit : (if csEq op.2.2 cs && op.1 == age then some op.2.1
      else emittedProp d cs age) =
      ((if opMatches cs age op then some op.2.1 else none).or
        (emittedProp d cs age)) := by
    unfold opMatches
    by_cases hm : (csEq op.2.2 cs && op.1 == age) = true <;> simp [hm]
  rw [hsplit]
  cases lastProp ops cs age <;>
    cases hcond : (if opMatches cs age op then some op.2.1 else none) <;> simp

theorem add_inner_nodup {d : AgeDist} {a : Int} {p : Cell} {cs' : ClassifierSet}
    (h : ∀ e ∈ d.distributions, (e.2.map Prod.fst).Nodup) :
    ∀ e ∈ (d.add a p cs').distributions, (e.2.map Prod.fst).Nodup := by
  unfold AgeDist.add
  by_cases houter : d.distributions.any (fun e => csEq e.1 cs') = true
  · rw [if_pos houter]
    intro e he
    rcases List.mem_map.mp he with ⟨e0, he0, hfe⟩
    subst hfe
    by_cases hc : csEq e0.1 cs' = true
    · simp only [hc, if_true]
      exact innerSet_keys_nodup (h e0 he0)
    · simp only [hc, if_false]
      exact h e0 he0
  · rw [if_neg houter]
    intro e he
    rcases List.mem_append.mp he with he0 | he0
    · exact h e he0
    · rcases List.mem_singleton.mp he0 with rfl
      simp

theorem foldl_inner_nodup :
    ∀ (ops : List (Int × Cell × ClassifierSet)) (d : AgeDist),
      (∀ e ∈ d.distributions, (e.2.map Prod.fst).Nodup) →
      ∀ e ∈ (ops.foldl (fun d op => d.add op.1 op.2.1 op.2.2) d).distributions,
        (e.2.map Prod.fst).Nodup
| [], _, h => h
| op :: ops, d, h => by
  rw [List.foldl_cons]
  exact foldl_inner_nodup ops (d.add op.1 op.2.1 op.2.2) (add_inner_nodup h)

theorem buildDist_inner_nodup (dts : List Cell)
    (ops : List (Int × Cell × ClassifierSet)) :
    ∀ e ∈ (buildDist dts ops).distributions, (e.2.map Prod.fst).Nodup :=
foldl_inner_nodup ops (AgeDist.empty dts) (by simp [AgeDist.empty])

theorem mem_sortByAge {m : List (Int × Cell)} {x : Int × Cell} :
    x ∈ sortByAge m ↔ x ∈ m :=
(List.perm_insertionSort agePairLe m).mem_iff

theorem sortByAge_pairwise_lt {m : List (Int × Cell)}
    (h : (m.map Prod.fst).Nodup) :
    (sortByAge m).Pairwise (fun a b : Int × Cell => a.1 < b.1) := by
  have hs : List.Sorted agePairLe (sortByAge m) :=
    List.sorted_insertionSort agePairLe m
  have hnd : ((sortByAge m).map Prod.fst).Nodup :=
    (((List.perm_insertionSort agePairLe m)).map Prod.fst).nodup_iff.mpr h
  have hne : (sortByAge m).Pairwise (fun a b : Int × Cell => a.1 ≠ b.1) :=
    List.pairwise_map.mp hnd
  exact (hs.and hne).imp (fun hab => lt_of_le_of_ne hab.1 hab.2)

theorem innerLookup_eq_some_iff :
    ∀ {m : List (Int × Cell)}, (m.map Prod.fst).Nodup → ∀ {age : Int} {p : Cell},
      (innerLookup m age = some p ↔ (age, p) ∈ m)
| [], _, age, p => by simp [innerLookup]
| (k, v) :: rest, hnd, age, p => by
  rw [List.map_cons, List.nodup_cons] at hnd
  constructor
  · intro h
    unfold innerLookup at h
    by_cases hc : ((fun e : Int × Cell => e.1 == age) (k, v)) = true
    · rw [List.find?_cons_of_pos rest hc] at h
      simp only [Option.map_some', Option.some_inj] at h
      subst h
      simp only [beq_iff_eq] at hc
      subst hc
      exact List.mem_cons_self _ _
    · rw [List.find?_cons_of_neg rest hc] at h
      right
      exact (innerLookup_eq_some_iff hnd.2).mp h
  · intro h
    rcases List.mem_cons.mp h with heq | hmem
    · rw [← heq]
      unfold innerLookup
      rw [List.find?_cons_of_pos rest
        (show ((fun e : Int × Cell => e.1 == age) (age, p)) = true by simp)]
      rfl
    · unfold innerLookup
      have hc : ¬((fun e : Int × Cell => e.1 == age) (k, v)) = true := by
        simp only [beq_iff_eq]
        intro heq
        apply hnd.1
        rw [heq]
        exact List.mem_map.mpr ⟨(age, p), hmem, rfl⟩
      rw [List.find?_cons_of_neg rest hc]
      exact (innerLookup_eq_some_iff hnd.2).mpr hmem

/-- C3: two spreadsheet rows whose classifier (name, value) pairs are equal as
sets but appear in a different column/insertion order get `_ClassifierSet`
keys that compare equal and hash equal, and adding both rows to one
`_AgeDistribution` yields a single emitted record, not two. -/
theorem classifier_rows_merge_order_independent (cs1 cs2 : ClassifierSet)
    (hnd : (cs1.map Prod.fst).Nodup) (hp : cs1.Perm cs2) :
    csEq cs1 cs2 = true ∧ csHash cs1 = csHash cs2 ∧
    ∀ (dts : List Cell) (a1 a2 : Int) (p1 p2 : Cell),
      (((AgeDist.empty dts).add a1 p1 cs1).add a2 p2 cs2).toJson.length = 1 := by
  have hs := sortItems_eq_of_perm hnd hp
  have hcs : csEq cs1 cs2 = true := csEq_eq_true_iff.mpr hs
  refine ⟨hcs, ?_, ?_⟩
  · unfold csHash
    rw [hs]
  · intro dts a1 a2 p1 p2
    have hcs' : csEq cs1 cs2 = true := hcs
    simp [AgeDist.empty, AgeDist.add, AgeDist.toJson, hcs']

/-- Witness for C3 at rows with classifiers in opposite column order. -/
theorem classifier_rows_merge_order_independent_witness :
    csEq [("a", Cell.str "1"), ("b", Cell.str "2")]
        [("b", Cell.str "2"), ("a", Cell.str "1")] = true ∧
    csHash [("a", Cell.str "1"), ("b", Cell.str "2")] =
      csHash [("b", Cell.str "2"), ("a", Cell.str "1")] ∧
    (((AgeDist.empty []).add 1 (Cell.num 1)
        [("a", Cell.str "1"), ("b", Cell.str "2")]).add 5 (Cell.num 2)
        [("b", Cell.str "2"), ("a", Cell.str "1")]).toJson.length = 1 := by
  have h := classifier_rows_merge_order_independent
    [("a", Cell.str "1"), ("b", Cell.str "2")]
    [("b", Cell.str "2"), ("a", Cell.str "1")] (by decide) (by decide)
  exact ⟨h.1, h.2.1, h.2.2 [] 1 5 (Cell.num 1) (Cell.num 2)⟩

/-- C4: every distribution a built `_AgeDistribution` emits is strictly
ascending by age with no duplicate ages, and the proportion emitted for a
(classifier set, age) pair is that of the last `add` call for that pair. -/
theorem age_distribution_sorted_and_last_write_wins (dts : List Cell)
    (ops : List (Int × Cell × ClassifierSet)) :
    (∀ rec ∈ (buildDist dts ops).toJson,
        rec.distribution.Pairwise (fun a b : Int × Cell => a.1 < b.1)) ∧
    (∀ (cs : ClassifierSet) (age : Int) (p : Cell),
        (∃ l, emittedDistribution (buildDist dts ops) cs = some l ∧ (age, p) ∈ l) ↔
          lastProp ops cs age = some p) := by
  constructor
  · intro rec hrec
    unfold AgeDist.toJson at hrec
    rcases List.mem_map.mp hrec with ⟨e, he, hfe⟩
    subst hfe
    exact sortByAge_pairwise_lt (buildDist_inner_nodup dts ops e he)
  · intro cs age p
    have hnone : emittedProp (AgeDist.empty dts) cs age = none := by
      simp [emittedProp, AgeDist.findEntry, AgeDist.empty]
    have hchar : emittedProp (buildDist dts ops) cs age = lastProp ops cs age := by
      unfold buildDist
      rw [emittedProp_foldl, hnone]
      cases lastProp ops cs age <;> simp
    constructor
    · rintro ⟨l, hl, hmem⟩
      rw [← hchar]
      unfold emittedDistribution at hl
      unfold emittedProp
      cases hf : (buildDist dts ops).findEntry cs with
      | none =>
        rw [hf] at hl
        simp at hl
      | some e =>
        rw [hf] at hl
        simp only [Option.map_some', Option.some_inj] at hl
        subst hl
        simp only [Option.some_bind]
        have hentry : e ∈ (buildDist dts ops).distributions := by
          unfold AgeDist.findEntry at hf
          exact List.mem_of_find?_eq_some hf
        have hnd := buildDist_inner_nodup dts ops e hentry
        exact (innerLookup_eq_some_iff hnd).mpr (mem_sortByAge.mp hmem)
    · intro hl
      rw [← hchar] at hl
      unfold emittedProp at hl
      cases hf : (buildDist dts ops).findEntry cs with
      | none =>
        rw [hf] at hl
        simp at hl
      | some e =>
        rw [hf] at hl
        simp only [Option.some_bind] at hl
        refine ⟨sortByAge e.2, ?_, ?_⟩
        · unfold emittedDistribution
          rw [hf]
          rfl
        · have hentry : e ∈ (buildDist dts ops).distributions := by
            unfold AgeDist.findEntry at hf
            exact List.mem_of_find?_eq_some hf
          have hnd := buildDist_inner_nodup dts ops e hentry
          exact mem_sortByAge.mpr ((innerLookup_eq_some_iff hnd).mp hl)

/-- Worked sheet for the C4 witness: the (classifier set, age) pair is added
twice with different proportions, plus a second age out of order. -/
def opsC4 : List (Int × Cell × ClassifierSet) :=
[(5, Cell.num 1, [("c", Cell.str "v")]),
 (2, Cell.num 3, [("c", Cell.str "v")]),
 (5, Cell.num 2, [("c", Cell.str "v")])]

/-- Witness for C4: the duplicate age 5 keeps only the last proportion and the
emitted sequence is strictly ascending. -/
theorem age_distribution_sorted_and_last_write_wins_witness :
    (∃ l, emittedDistribution (buildDist [] opsC4) [("c", Cell.str "v")] = some l ∧
        ((5 : Int), Cell.num 2) ∈ l) ∧
    DistRecord.mk none [("c", [Cell.str "v"])]
        [(2, Cell.num 3), (5, Cell.num 2)] ∈ (buildDist [] opsC4).toJson ∧
    (DistRecord.mk none [("c", [Cell.str "v"])]
        [(2, Cell.num 3), (5, Cell.num 2)]).distribution.Pairwise
      (fun a b : Int × Cell => a.1 < b.1) := by
  have h := age_distribution_sorted_and_last_write_wins [] opsC4
  refine ⟨(h.2 [("c", Cell.str "v")] 5 (Cell.num 2)).mpr (by decide), ?_, ?_⟩
  · decide
  · exact h.1 _ (by decide)

/-- A distribution sheet: header columns and data rows. -/
structure Sheet where
  columns : List String
  rows : List (List Cell)
deriving DecidableEq

/-- The age-distribution workbook: the root "age_distribution" sheet given as
(column name = distribution sheet name, column cells = disturbance types),
plus the named distribution sheets. -/
structure Workbook where
  root : List (String × List Cell)
  sheets : List (String × Sheet)
deriving DecidableEq

/-- Models `dict(zip(columns, row))` followed by `.get(k)`: a later duplicate column
wins, a missing key gives `None`. -/
def pyGetRow (cols : List String) (row : List Cell) (k : String) : Option Cell :=
((cols.zip row).reverse.find? (fun p => p.1 == k)).map (fun p => p.2)

/-- Models `row_data[k]`: a missing key raises `KeyError`. -/
def pyIndexRow (cols : List String) (row : List Cell) (k : String) :
    Except String Cell :=
match pyGetRow cols row k with
| some v => .ok v
| none => .error ("KeyError: " ++ k)

/-- Python dict item assignment for a string-keyed dict. -/
def dictSet (m : ClassifierSet) (k : String) (v : Cell) : ClassifierSet :=
if m.any (fun p => p.1 == k) then
  m.map (fun p => if p.1 == k then (p.1, v) else p)
else m ++ [(k, v)]

/-- The classifier-set dict comprehension of `_convert_age_distribution`:
the caller-supplied classifiers whose cell in this row is truthy, keyed by
name (`if row_data.get(c.name)`). -/
def rowClassifierSet (classifiers : List String) (cols : List String)
    (row : List Cell) : ClassifierSet :=
classifiers.foldl (fun acc c =>
  match pyGetRow cols row c with
  | some v => if v.truthy then dictSet acc c v else acc
  | none => acc) []

/-- One iteration of the row loop in `_convert_age_distribution`:
`distribution.add(int(row_data["min_age"]), row_data["proportion"], classifier_set)`. -/
def processRow (classifiers : List String) (sheet : Sheet) (d : AgeDist)
    (row : List Cell) : Except String AgeDist := do
  let cs := rowClassifierSet classifiers sheet.columns row
  let minAgeCell ← pyIndexRow sheet.columns row "min_age"
  let minAge ← pyInt minAgeCell
  let prop ← pyIndexRow sheet.columns row "proportion"
  return d.add minAge prop cs

/-- The row loop of `_convert_age_distribution`; a raised exception aborts it. -/
def processRows (classifiers : List String) (sheet : Sheet) :
    AgeDist → List (List Cell) → Except String AgeDist
| d, [] => .ok d
| d, r :: rs =>
  match processRow classifiers sheet d r with
  | .ok d2 => processRows classifiers sheet d2 rs
  | .error e => .error e

/-- Models `pd.read_excel(self.age_distribution, sheet_name=...)`: a missing sheet
raises. -/
def lookupSheet (wb : Workbook) (name : String) : Except String Sheet :=
match wb.sheets.find? (fun p => p.1 == name) with
| some p => .ok p.2
| none => .error ("ValueError: worksheet not found in workbook")

/-- The root-sheet disturbance-type filter: the root sheet alone goes through
`replace([np.nan], [None])` before the truthiness test, so a blank root cell
becomes `None` and is excluded there, while other falsy cells are excluded by
truthiness. -/
def distTypeKept : Cell → Bool
| .blank => false
| c => c.truthy

/-- The sheet loop of `_convert_age_distribution`, accumulating
`age_distributions.extend(distribution.to_json())`; the disturbance types of
a sheet are its root-column cells kept by the nan-replaced truthiness test. -/
def convertSheets (classifiers : List String) (wb : Workbook) :
    List DistRecord → List (String × List Cell) → Except String (List DistRecord)
| acc, [] => .ok acc
| acc, col :: rest =>
  match lookupSheet wb col.1 with
  | .error e => .error e
  | .ok sheet =>
    match processRows classifiers sheet (AgeDist.mk (col.2.filter distTypeKept) [])
        sheet.rows with
    | .ok d => convertSheets classifiers wb (acc ++ d.toJson) rest
    | .error e => .error e

/-- Models `Rollback._convert_age_distribution`: the value passed to `json.dump` at
the very end, or the raised exception. On an exception `json.dump` is never
reached, so no output file is written at all. -/
def convertAgeDistribution (classifiers : List String) (wb : Workbook) :
    Except String (List DistRecord) :=
convertSheets classifiers wb [] wb.root

theorem pyGetRow_none_of_not_mem {cols : List String} {row : List Cell}
    {k : String} (h : k ∉ cols) : pyGetRow cols row k = none := by
  unfold pyGetRow
  have hfind : (cols.zip row).reverse.find? (fun p => p.1 == k) = none := by
    rw [List.find?_eq_none]
    intro p hp hc
    simp only [beq_iff_eq] at hc
    apply h
    rw [← hc]
    rcases p with ⟨a, b⟩
    exact (List.mem_zip (List.mem_reverse.mp hp)).1
  rw [hfind]
  rfl

theorem processRow_error (classifiers : List String) (sheet : Sheet)
    (row : List Cell)
    (hcol : "min_age" ∉ sheet.columns ∨ "proportion" ∉ sheet.columns) :
    ∃ e, ∀ d : AgeDist, processRow classifiers sheet d row = .error e := by
  rcases hcol with hcol | hcol
  · refine ⟨"KeyError: min_age", ?_⟩
    intro d
    unfold processRow pyIndexRow
    rw [pyGetRow_none_of_not_mem hcol]
    rfl
  · cases hma : pyIndexRow sheet.columns row "min_age" with
    | error e =>
      refine ⟨e, ?_⟩
      intro d
      unfold processRow
      rw [hma]
      rfl
    | ok v =>
      cases hint : pyInt v with
      | error e =>
        refine ⟨e, ?_⟩
        intro d
        show Except.bind (pyIndexRow sheet.columns row "min_age")
          (fun minAgeCell => Except.bind (pyInt minAgeCell)
            (fun minAge => Except.bind (pyIndexRow sheet.columns row "proportion")
              (fun prop => Except.pure (d.add minAge prop
                (rowClassifierSet classifiers sheet.columns row))))) = Except.error e
        rw [hma]
        show Except.bind (pyInt v) _ = Except.error e
        rw [hint]
        rfl
      | ok n =>
        refine ⟨"KeyError: proportion", ?_⟩
        intro d
        show Except.bind (pyIndexRow sheet.columns row "min_age")
          (fun minAgeCell => Except.bind (pyInt minAgeCell)
            (fun minAge => Except.bind (pyIndexRow sheet.columns row "proportion")
              (fun prop => Except.pure (d.add minAge prop
                (rowClassifierSet classifiers sheet.columns row))))) =
          Except.error "KeyError: proportion"
        rw [hma]
        show Except.bind (pyInt v) _ = Except.error "KeyError: proportion"
        rw [hint]
        show Except.bind (pyIndexRow sheet.columns row "proportion") _ =
          Except.error "KeyError: proportion"
        unfold pyIndexRow
        rw [pyGetRow_none_of_not_mem hcol]
        rfl

theorem convertSheets_cons (classifiers : List String) (wb : Workbook)
    (acc : List DistRecord) (cn : String) (cd : List Cell)
    (rest : List (String × List Cell)) :
    convertSheets classifiers wb acc ((cn, cd) :: rest) =
      match lookupSheet wb cn with
      | .error e => .error e
      | .ok sheet =>
        match processRows classifiers sheet
            (AgeDist.mk (cd.filter distTypeKept) []) sheet.rows with
        | .ok d => convertSheets classifiers wb (acc ++ d.toJson) rest
        | .error e => .error e := rfl

theorem processRows_cons (classifiers : List String) (sheet : Sheet)
    (d : AgeDist) (r : List Cell) (rs : List (List Cell)) :
    processRows classifiers sheet d (r :: rs) =
      match processRow classifiers sheet d r with
      | .ok d2 => processRows classifiers sheet d2 rs
      | .error e => .error e := rfl

theorem convertSheets_error (classifiers : List String) (wb : Workbook)
    (name : String) (sheet : Sheet)
    (hsheet : lookupSheet wb name = .ok sheet)
    (hrows : sheet.rows ≠ [])
    (hcol : "min_age" ∉ sheet.columns ∨ "proportion" ∉ sheet.columns) :
    ∀ (cols : List (String × List Cell)) (acc : List DistRecord),
      name ∈ cols.map Prod.fst →
      ∃ e, convertSheets classifiers wb acc cols = .error e
| [], _, hmem => by simp at hmem
| ⟨cn, cd⟩ :: rest, acc, hmem => by
  by_cases hname : cn = name
  · subst hname
    cases hr : sheet.rows with
    | nil => exact absurd hr hrows
    | cons r rs =>
      rcases processRow_error classifiers sheet r hcol with ⟨e, he⟩
      refine ⟨e, ?_⟩
      simp only [convertSheets_cons, hsheet, hr, processRows_cons, he]
  · have hmem' : name ∈ rest.map Prod.fst := by
      rcases List.mem_map.mp hmem with ⟨p, hpmem, hpeq⟩
      rcases List.mem_cons.mp hpmem with rfl | hpmem'
      · exact absurd hpeq hname
      · exact List.mem_map.mpr ⟨p, hpmem', hpeq⟩
    rw [convertSheets_cons]
    cases hl : lookupSheet wb cn with
    | error e => exact ⟨e, rfl⟩
    | ok s2 =>
      show ∃ e3, (match processRows classifiers s2
            (AgeDist.mk (cd.filter distTypeKept) []) s2.rows with
          | .ok d => convertSheets classifiers wb (acc ++ d.toJson) rest
          | .error e2 => Except.error e2) = Except.error e3
      cases hp : processRows classifiers s2
          (AgeDist.mk (cd.filter distTypeKept) []) s2.rows with
      | error e => exact ⟨e, rfl⟩
      | ok d =>
        exact convertSheets_error classifiers wb name sheet hsheet hrows hcol
          rest (acc ++ d.toJson) hmem'

/-- C6 (amended): a distribution sheet that has at least one data row and
lacks the min_age or proportion column makes the whole conversion raise, so
`json.dump` is never reached and no output JSON is written (all-or-nothing). -/
theorem missing_column_aborts_without_output (classifiers : List String)
    (wb : Workbook) (name : String) (sheet : Sheet)
    (hroot : name ∈ wb.root.map Prod.fst)
    (hsheet : lookupSheet wb name = .ok sheet)
    (hrows : sheet.rows ≠ [])
    (hcol : "min_age" ∉ sheet.columns ∨ "proportion" ∉ sheet.columns) :
    ∃ e, convertAgeDistribution classifiers wb = .error e :=
convertSheets_error classifiers wb name sheet hsheet hrows hcol wb.root [] hroot

/-- C6 counterexample workbook: the single distribution sheet has no
`min_age` column but also no data rows. -/
def wbC6 : Workbook :=
⟨[("s1", [])], [("s1", ⟨["foo"], []⟩)]⟩

/-- C6 counterexample: on a sheet with no data rows the missing `min_age` and
`proportion` columns raise nothing — the conversion succeeds and output is
written, against the claim that any sheet lacking these columns is fatal. -/
theorem missing_column_empty_sheet_no_error :
    convertAgeDistribution ["a"] wbC6 = .ok [] ∧
    "min_age" ∉ (Sheet.mk ["foo"] []).columns ∧
    "proportion" ∉ (Sheet.mk ["foo"] []).columns := by
  refine ⟨rfl, by decide, by decide⟩

/-- Witness for C6 (amended) at a one-row sheet lacking `min_age`. -/
def wbC6w : Workbook :=
⟨[("s1", [])], [("s1", ⟨["proportion"], [[Cell.num 1]]⟩)]⟩

theorem missing_column_aborts_without_output_witness :
    ∃ e, convertAgeDistribution ["a"] wbC6w = .error e :=
missing_column_aborts_without_output ["a"] wbC6w "s1"
  (Sheet.mk ["proportion"] [[Cell.num 1]]) (by decide) rfl
  (by decide) (Or.inl (by decide))

theorem dictSet_append {m : ClassifierSet} {k : String} {v : Cell}
    (h : ∀ p ∈ m, p.1 ≠ k) : dictSet m k v = m ++ [(k, v)] := by
  unfold dictSet
  have hany : ¬ m.any (fun p => p.1 == k) = true := by
    intro hany
    rcases List.any_eq_true.mp hany with ⟨p, hp, hc⟩
    simp only [beq_iff_eq] at hc
    exact h p hp hc
  rw [if_neg hany]

/-- The contribution of one classifier column to the row's classifier set. -/
def rowKeyVal (cols : List String) (row : List Cell) (c : String) :
    Option (String × Cell) :=
match pyGetRow cols row c with
| some v => if v.truthy then some (c, v) else none
| none => none

theorem rowClassifierSet_aux (cols : List String) (row : List Cell) :
    ∀ (cls : List String) (acc : ClassifierSet),
      cls.Nodup → (∀ p ∈ acc, p.1 ∉ cls) →
      cls.foldl (fun acc c =>
        match pyGetRow cols row c with
        | some v => if v.truthy then dictSet acc c v else acc
        | none => acc) acc = acc ++ cls.filterMap (rowKeyVal cols row)
| [], acc, _, _ => by simp
| c :: rest, acc, hnd, hdisj => by
  rw [List.foldl_cons, List.filterMap_cons]
  rw [List.nodup_cons] at hnd
  cases hg : pyGetRow cols row c with
  | none =>
    rw [show rowKeyVal cols row c = none from by simp [rowKeyVal, hg]]
    simp only [hg]
    exact rowClassifierSet_aux cols row rest acc hnd.2
      (fun p hp hmem => hdisj p hp (List.mem_cons_of_mem c hmem))
  | some v =>
    by_cases ht : v.truthy = true
    · rw [show rowKeyVal cols row c = some (c, v) from by simp [rowKeyVal, hg, ht]]
      simp only [hg, ht, if_true]
      have hdset : dictSet acc c v = acc ++ [(c, v)] :=
        dictSet_append (fun p hp => fun hpc =>
          hdisj p hp (hpc ▸ List.mem_cons_self c rest))
      rw [hdset]
      have hdisj' : ∀ p ∈ acc ++ [(c, v)], p.1 ∉ rest := by
        intro p hp
        rcases List.mem_append.mp hp with hp1 | hp1
        · exact fun hmem => hdisj p hp1 (List.mem_cons_of_mem c hmem)
        · rcases List.mem_singleton.mp hp1 with rfl
          exact hnd.1
      rw [rowClassifierSet_aux cols row rest (acc ++ [(c, v)]) hnd.2 hdisj']
      simp
    · rw [show rowKeyVal cols row c = none from by simp [rowKeyVal, hg, ht]]
      simp only [hg, ht, if_false]
      exact rowClassifierSet_aux cols row rest acc hnd.2
        (fun p hp hmem => hdisj p hp (List.mem_cons_of_mem c hmem))

theorem rowClassifierSet_eq (cls cols : List String) (row : List Cell)
    (hnd : cls.Nodup) :
    rowClassifierSet cls cols row = cls.filterMap (rowKeyVal cols row) := by
  unfold rowClassifierSet
  simpa using rowClassifierSet_aux cols row cls [] hnd (by simp)

theorem filterMap_rowKeyVal_keys (cols : List String) (row : List Cell) :
    ∀ cls : List String,
      ((cls.filterMap (rowKeyVal cols row)).map Prod.fst) =
        cls.filter (fun c =>
          match pyGetRow cols row c with
          | some v => v.truthy
          | none => false)
| [] => rfl
| c :: rest => by
  rw [List.filterMap_cons, List.filter_cons]
  cases hg : pyGetRow cols row c with
  | none => simp [rowKeyVal, hg, filterMap_rowKeyVal_keys cols row rest]
  | some v =>
    by_cases ht : v.truthy = true <;>
      simp [rowKeyVal, hg, ht, filterMap_rowKeyVal_keys cols row rest]

theorem rowKeyVal_eq_some_iff {cols : List String} {row : List Cell}
    {a c : String} {v : Cell} :
    rowKeyVal cols row a = some (c, v) ↔
      a = c ∧ pyGetRow cols row a = some v ∧ v.truthy = true := by
  unfold rowKeyVal
  cases hg : pyGetRow cols row a with
  | none => simp [hg]
  | some w =>
    constructor
    · intro h
      have h2 : (if w.truthy = true then some (a, w) else none) = some (c, v) := h
      by_cases ht : w.truthy = true
      · rw [if_pos ht] at h2
        have heq : (a, w) = (c, v) := Option.some_inj.mp h2
        have ha : a = c := congrArg Prod.fst heq
        have hv : w = v := congrArg Prod.snd heq
        exact ⟨ha, by rw [hv], by rw [← hv]; exact ht⟩
      · rw [if_neg ht] at h2
        exact absurd h2 (by simp)
    · rintro ⟨rfl, hw, hv⟩
      have hwv : w = v := Option.some_inj.mp hw
      subst hwv
      show (if w.truthy = true then some (a, w) else none) = some (a, w)
      rw [if_pos hv]

theorem pyGetRow_append {cols : List String} {row : List Cell}
    {extra : String} {cell : Cell} {c : String}
    (hne : c ≠ extra) (hlen : cols.length = row.length) :
    pyGetRow (cols ++ [extra]) (row ++ [cell]) c = pyGetRow cols row c := by
  unfold pyGetRow
  rw [List.zip_append hlen]
  have hz : [extra].zip [cell] = ([(extra, cell)] : List (String × Cell)) := rfl
  rw [hz]
  rw [List.reverse_append]
  have hr : ([(extra, cell)] : List (String × Cell)).reverse = [(extra, cell)] := rfl
  rw [hr]
  rw [List.singleton_append]
  rw [List.find?_cons_of_neg]
  simp only [beq_iff_eq]
  exact fun h => hne h.symm

/-- C9 (amended): a row's `_ClassifierSet` key holds exactly the
caller-supplied classifier names whose cell in that row is truthy in Python's
sense. A blank cell is read by pandas as `nan`, which is truthy, so it is
included (with the `nan` value); an empty-string or zero cell is falsy and
omitted, as is a classifier whose column is missing; columns whose name is
not a configured classifier are ignored without error. -/
theorem row_classifier_set_truthy_cells (cls cols : List String)
    (row : List Cell) (hnd : cls.Nodup) :
    ((rowClassifierSet cls cols row).map Prod.fst =
      cls.filter (fun c =>
        match pyGetRow cols row c with
        | some v => v.truthy
        | none => false)) ∧
    (∀ (c : String) (v : Cell),
      ((c, v) ∈ rowClassifierSet cls cols row ↔
        c ∈ cls ∧ pyGetRow cols row c = some v ∧ v.truthy = true)) ∧
    (∀ (extra : String) (cell : Cell), extra ∉ cls → cols.length = row.length →
      rowClassifierSet cls (cols ++ [extra]) (row ++ [cell]) =
        rowClassifierSet cls cols row) := by
  refine ⟨?_, ?_, ?_⟩
  · rw [rowClassifierSet_eq cls cols row hnd]
    exact filterMap_rowKeyVal_keys cols row cls
  · intro c v
    rw [rowClassifierSet_eq cls cols row hnd]
    rw [List.mem_filterMap]
    constructor
    · rintro ⟨a, ha, hk⟩
      rcases rowKeyVal_eq_some_iff.mp hk with ⟨rfl, hg, ht⟩
      exact ⟨ha, hg, ht⟩
    · rintro ⟨hc, hg, ht⟩
      exact ⟨c, hc, rowKeyVal_eq_some_iff.mpr ⟨rfl, hg, ht⟩⟩
  · intro extra cell hextra hlen
    rw [rowClassifierSet_eq cls cols row hnd,
      rowClassifierSet_eq cls (cols ++ [extra]) (row ++ [cell]) hnd]
    apply List.filterMap_congr
    intro c hc
    unfold rowKeyVal
    have hne : c ≠ extra := by
      intro h
      rw [h] at hc
      exact hextra hc
    rw [pyGetRow_append hne hlen]

/-- Witness for C9 (amended): classifier `a` has a truthy cell and lands in
the key, classifier `b` has no column, and the extra non-classifier column
`z` is ignored. -/
theorem row_classifier_set_truthy_cells_witness :
    ((rowClassifierSet ["a", "b"] ["a", "c"] [Cell.str "x", Cell.str "y"]).map
      Prod.fst = ["a"]) ∧
    (("a", Cell.str "x") ∈
      rowClassifierSet ["a", "b"] ["a", "c"] [Cell.str "x", Cell.str "y"]) ∧
    rowClassifierSet ["a", "b"] (["a", "c"] ++ ["z"])
        ([Cell.str "x", Cell.str "y"] ++ [Cell.str "q"]) =
      rowClassifierSet ["a", "b"] ["a", "c"] [Cell.str "x", Cell.str "y"] := by
  have h := row_classifier_set_truthy_cells ["a", "b"] ["a", "c"]
    [Cell.str "x", Cell.str "y"] (by decide)
  refine ⟨h.1.trans (by decide), ?_, ?_⟩
  · exact (h.2.1 "a" (Cell.str "x")).mpr ⟨by decide, by decide, by decide⟩
  · exact h.2.2 "z" (Cell.str "q") (by decide) (by decide)

/-- C9 counterexample: both directions of the claim fail on the code. A blank
classifier cell is read by pandas as `nan` — truthy in Python — so the key
INCLUDES the classifier with the `nan` value instead of omitting it; and an
integer 0 cell — non-blank — is falsy, so the key omits it instead of
including it. -/
theorem blank_cell_included_zero_cell_omitted :
    rowClassifierSet ["a"] ["a", "min_age", "proportion"]
        [Cell.blank, Cell.int 5, Cell.num 1] = [("a", Cell.blank)] ∧
    rowClassifierSet ["a"] ["a", "min_age", "proportion"]
        [Cell.int 0, Cell.int 5, Cell.num 1] = [] ∧
    pyGetRow ["a", "min_age", "proportion"]
        [Cell.int 0, Cell.int 5, Cell.num 1] "a" = some (Cell.int 0) := by
  refine ⟨by decide, by decide, by decide⟩

end Rollback

namespace Converter

/-- A pandas column label in a two-level pivoted index: a string, or an
integer age label produced by pivoting on `age`. -/
inductive PLabel
| str (s : String)
| int (n : Int)
deriving DecidableEq

/-- The comparison with `""` in `_flatten_pivot_columns`; an integer label is
never equal to the empty string. -/
def PLabel.isEmptyStr : PLabel → Bool
| .str s => s == ""
| .int _ => false

/-- Models `ProjectConverter._flatten_pivot_columns`: for each column the inner
(second-level) label is kept when it is not `""`, else the outer
(first-level) label. -/
def flattenPivotColumns (cols : List (PLabel × PLabel)) : List PLabel :=
cols.map (fun c => if c.2.isEmptyStr then c.1 else c.2)

/-- C8: the pivot flattening maps each column independently to its inner
label when that label is non-empty and to its outer label otherwise,
preserving column count and column order. -/
theorem flatten_pivot_pointwise (cols : List (PLabel × PLabel)) :
    (flattenPivotColumns cols).length = cols.length ∧
    ∀ i : Nat, (flattenPivotColumns cols)[i]? =
      (cols[i]?).map (fun c => if c.2.isEmptyStr then c.1 else c.2) := by
  refine ⟨List.length_map _ _, ?_⟩
  intro i
  simp [flattenPivotColumns]

/-- Table `growth_curve_component` row. -/
structure GrowthCurveComponent where
  id : Nat
  growth_curve_id : Nat
  species_id : Nat
deriving DecidableEq

/-- Table `classifier_value` row. -/
structure ClassifierValueRow where
  id : Nat
  classifier_id : Nat
  value : String
deriving DecidableEq

/-- Table `classifier` row. -/
structure ClassifierRow where
  id : Nat
  name : String
deriving DecidableEq

/-- Table `species` row. -/
structure SpeciesRow where
  id : Nat
  name : String
deriving DecidableEq

/-- Table `growth_curve_component_value` row. -/
structure ComponentValueRow where
  growth_curve_component_id : Nat
  age : Int
  merchantable_volume : Rat
deriving DecidableEq

/-- Table `transition` row. -/
structure TransitionRow where
  id : Nat
  regen_delay : Int
  age : Int
deriving DecidableEq

/-- The relational input database read by `_convert_yields` and
`_convert_transitions`. `growth_curve_classifier_value` holds
(growth_curve_id, classifier_value_id) links and
`transition_classifier_value` holds (transition_id, classifier_value_id)
links. -/
structure InputDatabase where
  growth_curve_component : List GrowthCurveComponent
  growth_curve_classifier_value : List (Nat × Nat)
  classifier_value : List ClassifierValueRow
  classifier : List ClassifierRow
  species : List SpeciesRow
  growth_curve_component_value : List ComponentValueRow
  transition : List TransitionRow
  transition_classifier_value : List (Nat × Nat)
deriving DecidableEq

/-- The components query of `_convert_yields` — all INNER joins — emitting
(gcc.id, classifier name, classifier value). -/
def componentsQuery (db : InputDatabase) : List (Nat × String × String) :=
db.growth_curve_component.bind (fun gcc =>
  (db.growth_curve_classifier_value.filter
      (fun gccv => gccv.1 == gcc.growth_curve_id)).bind (fun gccv =>
    (db.classifier_value.filter (fun cv => cv.id == gccv.2)).bind (fun cv =>
      (db.classifier.filter (fun c => c.id == cv.classifier_id)).map (fun c =>
        (gcc.id, c.name, cv.value)))))

/-- The species query of `_convert_yields` (INNER join on species_id). -/
def speciesQuery (db : InputDatabase) : List (Nat × String) :=
db.growth_curve_component.bind (fun gcc =>
  (db.species.filter (fun s => s.id == gcc.species_id)).map (fun s =>
    (gcc.id, s.name)))

/-- The component-values query of `_convert_yields`. -/
def valuesQuery (db : InputDatabase) : List (Nat × Int × Rat) :=
db.growth_curve_component.bind (fun gcc =>
  (db.growth_curve_component_value.filter
      (fun gcv => gcv.growth_curve_component_id == gcc.id)).map (fun gcv =>
    (gcc.id, gcv.age, gcv.merchantable_volume)))

/-- The transitions query of `_convert_transitions` — all INNER joins —
keyed by (id, regen_delay, age_after). -/
def transitionsQuery (db : InputDatabase) :
    List ((Nat × Int × Int) × String × String) :=
db.transition.bind (fun t =>
  (db.transition_classifier_value.filter (fun tcv => tcv.1 == t.id)).bind
    (fun tcv =>
      (db.classifier_value.filter (fun cv => cv.id == tcv.2)).bind (fun cv =>
        (db.classifier.filter (fun c => c.id == cv.classifier_id)).map (fun c =>
          ((t.id, t.regen_delay, t.age), c.name, cv.value)))))

/-- Distinct sorted index keys as produced by a pandas pivot. -/
def pivotNatKeys (l : List Nat) : List Nat :=
List.insertionSort (fun a b : Nat => a ≤ b) l.dedup

/-- Distinct sorted age column keys as produced by a pandas pivot. -/
def pivotIntKeys (l : List Int) : List Int :=
List.insertionSort (fun a b : Int => a ≤ b) l.dedup

/-- Distinct sorted classifier-name column keys as produced by a pandas
pivot. -/
def pivotStrKeys (l : List String) : List String :=
List.insertionSort (fun a b : String => strLtB b a = false) l.dedup

/-- Lexicographic order on the (id, regen_delay, age_after) multi-index. -/
def tripleLe (a b : Nat × Int × Int) : Prop :=
a.1 < b.1 ∨ (a.1 = b.1 ∧ (a.2.1 < b.2.1 ∨ (a.2.1 = b.2.1 ∧ a.2.2 ≤ b.2.2)))

instance : DecidableRel tripleLe :=
fun a b => by unfold tripleLe; infer_instance

/-- Distinct sorted (id, regen_delay, age_after) index keys as produced by a
pandas pivot on a multi-index. -/
def pivotTripleKeys (l : List (Nat × Int × Int)) : List (Nat × Int × Int) :=
List.insertionSort tripleLe l.dedup

/-- The classifier cell of a pivoted table at (entity key, classifier name).
Only reached on the successful-pivot path of `convertYields`, where the
duplicate-entry guard has ensured the first matching query row is the only
one. -/
def lookupClassifierCell (q : List (Nat × String × String)) (k : Nat)
    (c : String) : Option String :=
(q.find? (fun r => r.1 == k && r.2.1 == c)).map (fun r => r.2.2)

/-- The species cell joined onto a component row (null when no species row). -/
def lookupSpecies (db : InputDatabase) (k : Nat) : Option String :=
((speciesQuery db).find? (fun r => r.1 == k)).map (fun r => r.2)

/-- The volume cell joined onto a component row at an age column. Only
reached on the successful-pivot path of `convertYields`, where the
duplicate-entry guard has ensured the first matching (id, age) row is the
only one. -/
def lookupVolume (db : InputDatabase) (k : Nat) (age : Int) : Option Rat :=
((valuesQuery db).find? (fun r => r.1 == k && r.2.1 == age)).map
  (fun r => r.2.2)

/-- The classifier cell of the pivoted transitions table. Only reached on the
successful-pivot path of `convertTransitions`, where the duplicate-entry
guard has ensured the first matching query row is the only one. -/
def lookupTransCell (q : List ((Nat × Int × Int) × String × String))
    (k : Nat × Int × Int) (c : String) : Option String :=
(q.find? (fun r => r.1 == k && r.2.1 == c)).map (fun r => r.2.2)

/-- One row of `sit_yields.csv` (the id is the pivot index, dropped from the
written file but identifying the row). -/
structure YieldRow where
  growth_curve_component_id : Nat
  classifiers : List (String × Option String)
  species : Option String
  volumes : List (Int × Option Rat)
deriving DecidableEq

/-- The table `_convert_yields` produces when both of its pivots succeed (see
`convertYields` for the duplicate-entry check pandas performs): the base
table is the components query pivoted on (id, classifier name) — one row per
id occurring in that INNER-join result — then left-joined on the id index
with the species query and the pivoted age/volume table. -/
def yieldsTable (db : InputDatabase) : List YieldRow :=
let q := componentsQuery db
let cols := pivotStrKeys (q.map (fun r => r.2.1))
let ages := pivotIntKeys ((valuesQuery db).map (fun r => r.2.1))
(pivotNatKeys (q.map (fun r => r.1))).map (fun k =>
  { growth_curve_component_id := k
    classifiers := cols.map (fun c => (c, lookupClassifierCell q k c))
    species := lookupSpecies db k
    volumes := ages.map (fun a => (a, lookupVolume db k a)) })

/-- One row of `sit_transitions.csv`. -/
structure TransRow where
  key : Nat × Int × Int
  classifiers : List (String × Option String)
deriving DecidableEq

/-- The table `_convert_transitions` produces when its pivot succeeds (see
`convertTransitions` for the duplicate-entry check pandas performs): the
transitions query pivoted on the (id, regen_delay, age_after) multi-index —
one row per key occurring in that INNER-join result. -/
def transTable (db : InputDatabase) : List TransRow :=
let q := transitionsQuery db
let cols := pivotStrKeys (q.map (fun r => r.2.1))
(pivotTripleKeys (q.map (fun r => r.1))).map (fun k =>
  { key := k
    classifiers := cols.map (fun c => (c, lookupTransCell q k c)) })

/-- Whether a list holds a duplicate element. -/
def listHasDup {α : Type} [DecidableEq α] : List α → Bool
| [] => false
| x :: xs => decide (x ∈ xs) || listHasDup xs

/-- Models `_convert_yields` end to end: pandas `DataFrame.pivot` raises
`ValueError` when the frame holds two rows for one (index, column) pair —
first checked for the components pivot on (id, classifier name), then for
the values pivot on (id, age) — and on an exception no CSV is written;
otherwise the yield table is produced. -/
def convertYields (db : InputDatabase) : Except String (List YieldRow) :=
if listHasDup ((componentsQuery db).map (fun r => (r.1, r.2.1))) then
  .error "ValueError: Index contains duplicate entries, cannot reshape"
else if listHasDup ((valuesQuery db).map (fun r => (r.1, r.2.1))) then
  .error "ValueError: Index contains duplicate entries, cannot reshape"
else .ok (yieldsTable db)

/-- Models `_convert_transitions` end to end: the pivot on the
(id, regen_delay, age_after) multi-index raises `ValueError` on a duplicate
(key, classifier name) pair, and on an exception no CSV is written;
otherwise the transition table is produced. -/
def convertTransitions (db : InputDatabase) : Except String (List TransRow) :=
if listHasDup ((transitionsQuery db).map (fun r => (r.1, r.2.1))) then
  .error "ValueError: Index contains duplicate entries, cannot reshape"
else .ok (transTable db)

theorem convertYields_ok_eq {db : InputDatabase} {rows : List YieldRow}
    (h : convertYields db = .ok rows) : rows = yieldsTable db := by
  unfold convertYields at h
  split_ifs at h
  exact (Except.ok.inj h).symm

theorem convertTransitions_ok_eq {db : InputDatabase} {rows : List TransRow}
    (h : convertTransitions db = .ok rows) : rows = transTable db := by
  unfold convertTransitions at h
  split_ifs at h
  exact (Except.ok.inj h).symm

theorem countP_beq_of_nodup {α : Type} [BEq α] [LawfulBEq α] [DecidableEq α] :
    ∀ (l : List α), l.Nodup → ∀ k : α,
      l.countP (fun i => i == k) = if k ∈ l then 1 else 0
| [], _, k => by simp
| a :: rest, hnd, k => by
  rw [List.nodup_cons] at hnd
  rw [List.countP_cons]
  rw [countP_beq_of_nodup rest hnd.2 k]
  by_cases hak : a = k
  · subst hak
    simp [hnd.1]
  · simp [hak, Ne.symm hak, List.mem_cons]

theorem insertionSort_dedup_nodup {α : Type} [DecidableEq α]
    (r : α → α → Prop) [DecidableRel r] (l : List α) :
    (List.insertionSort r l.dedup).Nodup :=
(List.perm_insertionSort r l.dedup).nodup_iff.mpr (List.nodup_dedup l)

theorem mem_insertionSort_dedup {α : Type} [DecidableEq α]
    (r : α → α → Prop) [DecidableRel r] {l : List α} {a : α} :
    a ∈ List.insertionSort r l.dedup ↔ a ∈ l :=
(List.perm_insertionSort r l.dedup).mem_iff.trans (List.mem_dedup)

theorem lookupSpecies_eq_none_iff (db : InputDatabase) (k : Nat) :
    lookupSpecies db k = none ↔ k ∉ (speciesQuery db).map Prod.fst := by
  unfold lookupSpecies
  rw [Option.map_eq_none']
  rw [List.find?_eq_none]
  constructor
  · intro h hmem
    rcases List.mem_map.mp hmem with ⟨r, hr, hrk⟩
    exact h r hr (by simp [hrk])
  · intro h r hr hc
    simp only [beq_iff_eq] at hc
    exact h (List.mem_map.mpr ⟨r, hr, hc⟩)

/-- C2 (amended): whenever the pivots succeed — pandas raises `ValueError` on
a duplicate (entity key, column) pair, in which case nothing is emitted — the
yield and transition tables hold exactly one row per entity key occurring in
the classifier INNER-join base query. An entity with no classifier-value rows
is dropped with that base query, while a missing species or age-volume row
only nulls the corresponding cell of a kept row. -/
theorem extraction_rows_and_nulls (db : InputDatabase) :
    (∀ rows, convertYields db = .ok rows →
      (∀ k : Nat, rows.countP
          (fun r => r.growth_curve_component_id == k) =
        if k ∈ (componentsQuery db).map (fun r => r.1) then 1 else 0) ∧
      (∀ r ∈ rows,
        r.species = lookupSpecies db r.growth_curve_component_id ∧
        (r.species = none ↔
          r.growth_curve_component_id ∉ (speciesQuery db).map Prod.fst) ∧
        (∀ p ∈ r.volumes,
          p.2 = lookupVolume db r.growth_curve_component_id p.1) ∧
        (∀ p ∈ r.classifiers,
          p.2 = lookupClassifierCell (componentsQuery db)
            r.growth_curve_component_id p.1))) ∧
    (∀ rows, convertTransitions db = .ok rows →
      ∀ k : Nat × Int × Int, rows.countP (fun r => r.key == k) =
        if k ∈ (transitionsQuery db).map (fun r => r.1) then 1 else 0) := by
  constructor
  · intro rows hok
    rw [convertYields_ok_eq hok]
    constructor
    · intro k
      unfold yieldsTable
      rw [List.countP_map]
      have hcomp : ((fun r : YieldRow => r.growth_curve_component_id == k) ∘
          (fun k2 : Nat =>
            ({ growth_curve_component_id := k2
               classifiers := (pivotStrKeys ((componentsQuery db).map
                 (fun r => r.2.1))).map (fun c =>
                   (c, lookupClassifierCell (componentsQuery db) k2 c))
               species := lookupSpecies db k2
               volumes := (pivotIntKeys ((valuesQuery db).map
                 (fun r => r.2.1))).map (fun a =>
                   (a, lookupVolume db k2 a)) } : YieldRow))) =
          (fun i : Nat => i == k) := rfl
      rw [hcomp]
      unfold pivotNatKeys
      rw [countP_beq_of_nodup _
        (insertionSort_dedup_nodup _
          ((componentsQuery db).map (fun r => r.1))) k]
      by_cases hmem : k ∈ (componentsQuery db).map (fun r => r.1)
      · rw [if_pos ((mem_insertionSort_dedup _).mpr hmem), if_pos hmem]
      · rw [if_neg (fun hc => hmem ((mem_insertionSort_dedup _).mp hc)),
          if_neg hmem]
    · intro r hr
      unfold yieldsTable at hr
      rcases List.mem_map.mp hr with ⟨k, _, hfe⟩
      subst hfe
      refine ⟨rfl, lookupSpecies_eq_none_iff db k, ?_, ?_⟩
      · intro p hp
        rcases List.mem_map.mp hp with ⟨a, _, hpa⟩
        subst hpa
        rfl
      · intro p hp
        rcases List.mem_map.mp hp with ⟨c, _, hpc⟩
        subst hpc
        rfl
  · intro rows hok
    rw [convertTransitions_ok_eq hok]
    intro k
    unfold transTable
    rw [List.countP_map]
    have hcomp : ((fun r : TransRow => r.key == k) ∘
        (fun k2 : Nat × Int × Int =>
          ({ key := k2
             classifiers := (pivotStrKeys ((transitionsQuery db).map
               (fun r => r.2.1))).map (fun c =>
                 (c, lookupTransCell (transitionsQuery db) k2 c)) } :
            TransRow))) =
        (fun i : Nat × Int × Int => i == k) := rfl
    rw [hcomp]
    unfold pivotTripleKeys
    rw [countP_beq_of_nodup
      (List.insertionSort tripleLe
        (((transitionsQuery db).map (fun r => r.1)).dedup))
      (insertionSort_dedup_nodup tripleLe
        ((transitionsQuery db).map (fun r => r.1))) k]
    by_cases hmem : k ∈ (transitionsQuery db).map (fun r => r.1)
    · rw [if_pos ((mem_insertionSort_dedup _).mpr hmem), if_pos hmem]
    · rw [if_neg (fun hc => hmem ((mem_insertionSort_dedup _).mp hc)),
        if_neg hmem]

/-- C2 counterexample database: one growth-curve component with a species row
and an age/volume row, but no classifier-value rows. -/
def dbC2 : InputDatabase :=
{ growth_curve_component := [⟨1, 10, 5⟩]
  growth_curve_classifier_value := []
  classifier_value := []
  classifier := []
  species := [⟨5, "Pine"⟩]
  growth_curve_component_value := [⟨1, 0, 50⟩]
  transition := []
  transition_classifier_value := [] }

/-- C2 counterexample: the component exists in the database and the pivots
succeed, yet the emitted yield table is empty — the entity row is dropped
because its classifier-value related rows are absent, instead of being
emitted with null classifier cells. -/
theorem component_without_classifier_rows_dropped :
    dbC2.growth_curve_component = [⟨1, 10, 5⟩] ∧
    lookupSpecies dbC2 1 = some "Pine" ∧
    convertYields dbC2 = .ok [] := by
  refine ⟨rfl, by decide, rfl⟩

/-- C2 witness database: one component with a classifier-value row but with
no species row and no age/volume rows. -/
def dbC2w : InputDatabase :=
{ growth_curve_component := [⟨1, 10, 5⟩]
  growth_curve_classifier_value := [(10, 100)]
  classifier_value := [⟨100, 7, "B"⟩]
  classifier := [⟨7, "cls"⟩]
  species := []
  growth_curve_component_value := []
  transition := []
  transition_classifier_value := [] }

/-- Witness for C2 (amended): the pivots succeed, the component with a
classifier row appears exactly once, and its missing species row yields a
null species cell. -/
theorem extraction_rows_and_nulls_witness :
    ∃ rows, convertYields dbC2w = .ok rows ∧
      rows.countP (fun r => r.growth_curve_component_id == 1) = 1 ∧
      ∃ r ∈ rows, r.species = none := by
  have h := extraction_rows_and_nulls dbC2w
  refine ⟨yieldsTable dbC2w, rfl, ?_, ?_⟩
  · exact ((h.1 (yieldsTable dbC2w) rfl).1 1).trans (by decide)
  · refine ⟨YieldRow.mk 1 [("cls", some "B")] none [], by decide, ?_⟩
    have h2 := ((h.1 (yieldsTable dbC2w) rfl).2
      (YieldRow.mk 1 [("cls", some "B")] none []) (by decide)).2.1
    exact h2.mpr (by decide)

/-- A database where one growth curve is linked to two values of the same
classifier: the components frame holds two rows for the (id, classifier
name) pair, which `DataFrame.pivot` refuses. -/
def dbC2dup : InputDatabase :=
{ growth_curve_component := [⟨1, 10, 5⟩]
  growth_curve_classifier_value := [(10, 100), (10, 101)]
  classifier_value := [⟨100, 7, "B"⟩, ⟨101, 7, "C"⟩]
  classifier := [⟨7, "cls"⟩]
  species := []
  growth_curve_component_value := []
  transition := []
  transition_classifier_value := [] }

/-- On duplicate pivot entries `_convert_yields` raises and emits nothing. -/
theorem convertYields_duplicate_pivot_raises :
    convertYields dbC2dup =
      .error "ValueError: Index contains duplicate entries, cannot reshape" :=
rfl

/-- One operation of `ProjectConverter.convert` on the output path, in
program order. -/
inductive ConvStep
| rmtree
| mkdirStep
| yields
| transitions
| inputdb
| spatial
deriving DecidableEq, Fintype

/-- What exists at the output path. -/
inductive OutputState
| preexisting
| empty
| incomplete
| complete
deriving DecidableEq, Fintype

/-- The operations of `ProjectConverter.convert` in program order:
`shutil.rmtree`, `mkdir`, `_convert_yields`, `_convert_transitions`,
`_build_input_database`, `_convert_spatial_data`. -/
def convertOrder : List ConvStep :=
[ConvStep.rmtree, ConvStep.mkdirStep, ConvStep.yields, ConvStep.transitions,
 ConvStep.inputdb, ConvStep.spatial]

/-- Effect of a completed step on the output path: `shutil.rmtree` empties it
regardless of prior contents, each artifact step leaves it incomplete, and
the final spatial step completes the new output. -/
def applyStep (s : OutputState) : ConvStep → OutputState
| .rmtree => .empty
| .mkdirStep => s
| .yields => .incomplete
| .transitions => .incomplete
| .inputdb => .incomplete
| .spatial => .complete

/-- Models `ProjectConverter.convert` as a step sequence: each step either completes
(continuing with the next) or raises (aborting the call); `shutil.rmtree` is
called with `ignore_errors=True` and cannot raise. Returns the final output
state and the trace of steps that started. -/
def runConvertAux (ok : ConvStep → Bool) :
    OutputState → List ConvStep → OutputState × List ConvStep
| s, [] => (s, [])
| s, st :: rest =>
  if st == ConvStep.rmtree || ok st then
    ((runConvertAux ok (applyStep s st) rest).1,
      st :: (runConvertAux ok (applyStep s st) rest).2)
  else (s, [st])

/-- The whole `convert` call from a given prior output state. -/
def runConvert (prior : OutputState) (ok : ConvStep → Bool) :
    OutputState × List ConvStep :=
runConvertAux ok prior convertOrder

/-- C10: `convert` deletes the output path first — before any write — so the
prior output is destroyed no matter what was there, and when any later step
fails the location holds neither the old output nor a complete new one. -/
theorem convert_deletes_output_first :
    ∀ (prior : OutputState) (ok : ConvStep → Bool),
      (runConvert prior ok).2.head? = some ConvStep.rmtree ∧
      (runConvert prior ok).1 ≠ OutputState.preexisting ∧
      (∀ st : ConvStep, st ≠ ConvStep.rmtree → ok st = false →
        (runConvert prior ok).1 ≠ OutputState.complete) := by
  decide

/-- Witness for C10: a failure in the input-database step leaves the output
neither pre-existing nor complete; the delete still ran first. -/
theorem convert_deletes_output_first_witness :
    (runConvert OutputState.preexisting
        (fun st => !(st == ConvStep.inputdb))).2.head? = some ConvStep.rmtree ∧
    (runConvert OutputState.preexisting
        (fun st => !(st == ConvStep.inputdb))).1 ≠ OutputState.preexisting ∧
    (runConvert OutputState.preexisting
        (fun st => !(st == ConvStep.inputdb))).1 ≠ OutputState.complete := by
  have h := convert_deletes_output_first OutputState.preexisting
    (fun st => !(st == ConvStep.inputdb))
  exact ⟨h.1, h.2.1, h.2.2 ConvStep.inputdb (by decide) (by decide)⟩

end Converter

namespace Walltowall

/-- The metadata of a `PreparedProject` consumed by the `merge` command. -/
structure PreparedProjectMeta where
  start_year : Int
  end_year : Int
deriving DecidableEq

/-- Python `min` over a sequence; an empty sequence raises `ValueError`. -/
def pyMin (l : List Int) : Except String Int :=
match l with
| [] => .error "ValueError: min() arg is an empty sequence"
| x :: xs => .ok (xs.foldl min x)

/-- Python `max` over a sequence; an empty sequence raises `ValueError`. -/
def pyMax (l : List Int) : Except String Int :=
match l with
| [] => .error "ValueError: max() arg is an empty sequence"
| x :: xs => .ok (xs.foldl max x)

/-- Models `start_year = min((project.start_year for project in projects))`. -/
def mergeStartYear (ps : List PreparedProjectMeta) : Except String Int :=
pyMin (ps.map (fun p => p.start_year))

/-- Models `end_year = max((project.end_year for project in projects))`. -/
def mergeEndYear (ps : List PreparedProjectMeta) : Except String Int :=
pyMax (ps.map (fun p => p.end_year))

/-- The four externally effectful stages the `merge` command runs:
`gcbm_merge.merge`, `gcbm_merge_tile.tile`,
`replace_direct_attached_transition_rules`, `GCBMConfigurer.configure`. -/
inductive Stage
| merge
| tile
| patch
| configure
deriving DecidableEq, Fintype

/-- The stages in program order. -/
def mergeStages : List Stage :=
[Stage.merge, Stage.tile, Stage.patch, Stage.configure]

def stageIdx : Stage → Nat
| .merge => 0
| .tile => 1
| .patch => 2
| .configure => 3

/-- Sequential execution with Python exception semantics: stages are invoked
in order and a raised exception propagates, so a failing stage is the last
one invoked. Returns the invoked stages. -/
def runSeq (ok : Stage → Bool) : List Stage → List Stage
| [] => []
| s :: rest => if ok s then s :: runSeq ok rest else [s]

/-- The body of the `merge` command: the reconciled years are computed, then
the four stages run in order. The code contains no project-count check; the
Python `min`/`max` over an empty projects list is the only failure possible
before the stages. -/
def mergeCommand (ps : List PreparedProjectMeta) (ok : Stage → Bool) :
    Except String (List Stage) :=
match mergeStartYear ps with
| .error e => .error e
| .ok _ =>
  match mergeEndYear ps with
  | .error e => .error e
  | .ok _ => .ok (runSeq ok mergeStages)

/-- C1: contrary to the claim (and to the CLI help text, which documents "at
least two" projects), `merge` invoked with exactly one project path raises no
configuration error: all four stages are invoked, including the
filesystem-writing merge stage. -/
theorem merge_single_project_runs_all_stages :
    mergeCommand [⟨2000, 2020⟩] (fun _ => true) =
      .ok [Stage.merge, Stage.tile, Stage.patch, Stage.configure] := rfl

/-- C5: the invoked trace is always a prefix of the order merge, tile, patch,
configure; on all-success all four stages run; and a failing stage prevents
every later stage from being invoked. -/
theorem merge_stage_order_and_abort :
    ∀ ok : Stage → Bool,
      runSeq ok mergeStages =
        mergeStages.take (runSeq ok mergeStages).length ∧
      ((∀ s, ok s = true) → runSeq ok mergeStages = mergeStages) ∧
      (∀ s t : Stage, ok s = false → stageIdx s < stageIdx t →
        t ∉ runSeq ok mergeStages) := by
  decide

/-- Witness for C5: a tiling failure keeps the patch and configure stages
from being invoked. -/
theorem merge_stage_order_and_abort_witness :
    Stage.patch ∉ runSeq (fun s => !(s == Stage.tile)) mergeStages ∧
    Stage.configure ∉ runSeq (fun s => !(s == Stage.tile)) mergeStages := by
  have h := merge_stage_order_and_abort (fun s => !(s == Stage.tile))
  exact ⟨h.2.2 Stage.tile Stage.patch (by decide) (by decide),
    h.2.2 Stage.tile Stage.configure (by decide) (by decide)⟩

theorem foldl_min_mem : ∀ (xs : List Int) (x : Int), xs.foldl min x ∈ x :: xs
| [], x => List.mem_singleton.mpr rfl
| y :: ys, x => by
  rw [List.foldl_cons]
  have h := foldl_min_mem ys (min x y)
  rcases List.mem_cons.mp h with heq | hmem
  · rcases min_choice x y with hc | hc
    · rw [heq, hc]
      exact List.mem_cons_self _ _
    · rw [heq, hc]
      exact List.mem_cons_of_mem _ (List.mem_cons_self _ _)
  · exact List.mem_cons_of_mem _ (List.mem_cons_of_mem _ hmem)

theorem foldl_min_le : ∀ (xs : List Int) (x y : Int), y ∈ x :: xs →
    xs.foldl min x ≤ y
| [], x, y, hy => by
  rcases List.mem_singleton.mp hy with rfl
  exact le_refl _
| z :: zs, x, y, hy => by
  rw [List.foldl_cons]
  have hminxz : zs.foldl min (min x z) ≤ min x z :=
    foldl_min_le zs (min x z) (min x z) (List.mem_cons_self _ _)
  rcases List.mem_cons.mp hy with rfl | hy2
  · exact le_trans hminxz (min_le_left _ _)
  · rcases List.mem_cons.mp hy2 with rfl | hy3
    · exact le_trans hminxz (min_le_right _ _)
    · exact foldl_min_le zs (min x z) y (List.mem_cons_of_mem _ hy3)

theorem foldl_max_mem : ∀ (xs : List Int) (x : Int), xs.foldl max x ∈ x :: xs
| [], x => List.mem_singleton.mpr rfl
| y :: ys, x => by
  rw [List.foldl_cons]
  have h := foldl_max_mem ys (max x y)
  rcases List.mem_cons.mp h with heq | hmem
  · rcases max_choice x y with hc | hc
    · rw [heq, hc]
      exact List.mem_cons_self _ _
    · rw [heq, hc]
      exact List.mem_cons_of_mem _ (List.mem_cons_self _ _)
  · exact List.mem_cons_of_mem _ (List.mem_cons_of_mem _ hmem)

theorem foldl_max_ge : ∀ (xs : List Int) (x y : Int), y ∈ x :: xs →
    y ≤ xs.foldl max x
| [], x, y, hy => by
  rcases List.mem_singleton.mp hy with rfl
  exact le_refl _
| z :: zs, x, y, hy => by
  rw [List.foldl_cons]
  have hmaxxz : max x z ≤ zs.foldl max (max x z) :=
    foldl_max_ge zs (max x z) (max x z) (List.mem_cons_self _ _)
  rcases List.mem_cons.mp hy with rfl | hy2
  · exact le_trans (le_max_left _ _) hmaxxz
  · rcases List.mem_cons.mp hy2 with rfl | hy3
    · exact le_trans (le_max_right _ _) hmaxxz
    · exact foldl_max_ge zs (max x z) y (List.mem_cons_of_mem _ hy3)

/-- C7: for every non-empty project list the reconciled start year is the
minimum of the inputs' start years and the reconciled end year is the
maximum of the inputs' end years. -/
theorem merge_reconciled_window (ps : List PreparedProjectMeta) (h : ps ≠ []) :
    ∃ s e, mergeStartYear ps = .ok s ∧ mergeEndYear ps = .ok e ∧
      s ∈ ps.map (fun p => p.start_year) ∧
      (∀ y ∈ ps.map (fun p => p.start_year), s ≤ y) ∧
      e ∈ ps.map (fun p => p.end_year) ∧
      (∀ y ∈ ps.map (fun p => p.end_year), y ≤ e) := by
  cases hps : ps with
  | nil => exact absurd hps h
  | cons p rest =>
    refine ⟨(rest.map (fun q : PreparedProjectMeta => q.start_year)).foldl
        min p.start_year,
      (rest.map (fun q : PreparedProjectMeta => q.end_year)).foldl
        max p.end_year,
      rfl, rfl, ?_, ?_, ?_, ?_⟩
    · rw [List.map_cons]
      exact foldl_min_mem _ _
    · intro y hy
      rw [List.map_cons] at hy
      exact foldl_min_le _ _ y hy
    · rw [List.map_cons]
      exact foldl_max_mem _ _
    · intro y hy
      rw [List.map_cons] at hy
      exact foldl_max_ge _ _ y hy

/-- The spec's worked example for C7. -/
def psC7 : List PreparedProjectMeta :=
[⟨2000, 2020⟩, ⟨1995, 2015⟩, ⟨2005, 2030⟩]

/-- Witness for C7 at start years {2000, 1995, 2005} and end years
{2020, 2015, 2030}: the window is 1995..2030. -/
theorem merge_reconciled_window_witness :
    mergeStartYear psC7 = .ok 1995 ∧ mergeEndYear psC7 = .ok 2030 ∧
    ∃ s e, mergeStartYear psC7 = .ok s ∧ mergeEndYear psC7 = .ok e ∧
      s ∈ psC7.map (fun p => p.start_year) ∧
      (∀ y ∈ psC7.map (fun p => p.start_year), s ≤ y) ∧
      e ∈ psC7.map (fun p => p.end_year) ∧
      (∀ y ∈ psC7.map (fun p => p.end_year), y ≤ e) :=
⟨rfl, rfl, merge_reconciled_window psC7 (by decide)⟩

end Walltowall
